import Mathlib

/-
Shallow embedding of the outbound packet queue (`src/out_queue.rs`) of a
micro-transport-protocol implementation.

Modelling conventions:
* `u16`/`u32`/`u64` values are `Nat`; `i64` values are `Int`.  Operations the
  Rust code performs with explicitly wrapping arithmetic (`wrapping_add`,
  `wrapping_sub`, `wrapping_mul`, the `% 2^w` they induce) are modelled with
  explicit `% 2^16` / `% 2^32`; checked arithmetic (plain `+`, `-`, `/`,
  which would panic on overflow rather than wrap) is modelled exactly on
  `Nat`/`Int`.  Signed division on `i64` truncates toward zero and is
  modelled with `Int.tdiv`.
* `Instant` is a `Nat` (nanoseconds on a monotonic clock); `Instant::now()`
  becomes an explicit `now : Nat` argument to the functions that read the
  clock.  `Duration` values are `Nat` nanoseconds; `duration.as_secs()` is
  `n / 1000000000` and `duration.subsec_nanos()` is `n % 1000000000`.
* `VecDeque` is a `List` whose head is the front of the deque.
* Rust `assert!` failures (panics) are modelled by returning `none` from an
  `Option`-valued function.
* `io::Result<usize>` from `write` is modelled by `WriteResult`; the post
  state is returned alongside it (the Rust method mutates through
  `&mut self`, and the would-block path returns before any mutation).
-/

namespace Utp

/-- Packet type discriminant.  Modelled from the spec: the packet module is
not part of the sources under verification; the spec describes "a value with
a discriminated type {Connect, Data, Ack-only/State, Fin, Reset}". -/
inductive PTy where
  | syn
  | data
  | state
  | fin
  | reset
deriving DecidableEq, Repr

/-- Modelled from the spec: the packet module is not part of the sources
under verification; the spec describes a packet as a value with a fixed
header size and "fields for connection id, sequence number, ack number,
32-bit relative timestamp, 32-bit timestamp-difference, advertised window
size, and a payload byte sequence". -/
structure Packet where
  ty : PTy
  connection_id : Nat
  seq_nr : Nat
  ack_nr : Nat
  timestamp : Nat
  timestamp_diff : Nat
  wnd_size : Nat
  payload : List Nat
deriving DecidableEq, Repr

/-- Embeds `Packet::data(payload)` — modelled from the spec: "constructible from a
payload (Data)".  Header fields start as zero and are stamped later. -/
def Packet.dataP (payload : List Nat) : Packet :=
  { ty := PTy.data, connection_id := 0, seq_nr := 0, ack_nr := 0,
    timestamp := 0, timestamp_diff := 0, wnd_size := 0, payload := payload }

/-- Embeds `Packet::state()` — modelled from the spec: "constructible ... with no
payload (Ack-only)". -/
def Packet.stateP : Packet :=
  { ty := PTy.state, connection_id := 0, seq_nr := 0, ack_nr := 0,
    timestamp := 0, timestamp_diff := 0, wnd_size := 0, payload := [] }

/-- One queued outbound packet with its send bookkeeping (`struct Entry`). -/
structure Entry where
  packet : Packet
  num_sends : Nat
  last_sent_at : Option Nat
  acked : Bool
deriving DecidableEq, Repr

/-- Per-connection scalar state (`struct State`). -/
structure State where
  connection_id : Nat
  seq_nr : Nat
  local_ack : Option Nat
  last_ack : Option Nat
  peer_window : Nat
  local_window : Nat
  created_at : Nat
  their_delay : Nat
deriving DecidableEq, Repr

/-- The outbound queue (`struct OutQueue`). -/
structure OutQueue where
  packets : List Entry
  state : State
  rtt : Nat
  rtt_variance : Int
  max_window : Nat
deriving DecidableEq, Repr

/-- Embeds `const MAX_PACKET_SIZE: usize = 1_400` — max size of a UDP packet. -/
def MAX_PACKET_SIZE : Nat := 1400

/-- Embeds `const MIN_PACKET_SIZE: usize = 150`. -/
def MIN_PACKET_SIZE : Nat := 150

/-- Modelled from the spec: the fixed packet header size (`HEADER_LEN` comes
from the packet module, which is not part of the sources under
verification); the standard 20-byte header of the protocol is used. -/
def HEADER_LEN : Nat := 20

/-- Embeds `const MAX_DATA_SIZE: usize = MAX_PACKET_SIZE - HEADER_LEN`. -/
def MAX_DATA_SIZE : Nat := MAX_PACKET_SIZE - HEADER_LEN

/-- Embeds `const MIN_DATA_SIZE: usize = MIN_PACKET_SIZE - HEADER_LEN`. -/
def MIN_DATA_SIZE : Nat := MIN_PACKET_SIZE - HEADER_LEN

/-- Modelled from the spec: the protocol's maximum window (`MAX_WINDOW_SIZE`
comes from the crate root, which is not part of the sources under
verification); the customary 64 KiB maximum window is used. -/
def MAX_WINDOW_SIZE : Nat := 64 * 1024

/-- 16-bit `wrapping_sub`. -/
def wrappingSub16 (a b : Nat) : Nat := (a + 65536 - b % 65536) % 65536

/-- 32-bit `wrapping_sub`. -/
def wrappingSub32 (a b : Nat) : Nat := (a + 4294967296 - b % 4294967296) % 4294967296

/-- Embeds `fn as_micros(duration) -> u32`: seconds times 10^6 with 32-bit wrapping
multiplication, plus sub-second nanoseconds divided down to microseconds. -/
def asMicros (d : Nat) : Nat :=
  (d / 1000000000 * 1000000) % 4294967296 + d % 1000000000 / 1000

/-- Embeds `fn as_ms(duration) -> u64`: 30 000 whenever the whole-second count
exceeds 30, otherwise whole seconds times 1000 plus sub-second
milliseconds. -/
def asMs (d : Nat) : Nat :=
  if d / 1000000000 > 30 then
    30000
  else
    d / 1000000000 * 1000 + d % 1000000000 / 1000000

/-- Embeds `OutQueue::new(connection_id, seq_nr, local_ack)`. -/
def new (connection_id seq_nr : Nat) (local_ack : Option Nat) : OutQueue :=
  { packets := [],
    state :=
      { connection_id := connection_id, seq_nr := seq_nr,
        local_ack := local_ack, last_ack := none,
        peer_window := MAX_WINDOW_SIZE, local_window := 0,
        created_at := 0, their_delay := 0 },
    rtt := 0, rtt_variance := 0,
    max_window := MAX_PACKET_SIZE }

/-- Embeds `OutQueue::is_empty`. -/
def is_empty (q : OutQueue) : Bool := q.packets.isEmpty

/-- Embeds `self.timestamp()`: microseconds elapsed since `created_at`. -/
def timestamp (q : OutQueue) (now : Nat) : Nat :=
  asMicros (now - q.state.created_at)

/-- Embeds `OutQueue::set_their_delay`. -/
def set_their_delay (q : OutQueue) (their_timestamp now : Nat) : OutQueue :=
  let our_timestamp := asMicros (now - q.state.created_at)
  { q with state := { q.state with their_delay := wrappingSub32 our_timestamp their_timestamp } }

/-- The acknowledged-range test performed on the front entry inside
`set_their_ack`'s loop: `lower` is `ack_nr.wrapping_sub(ack_nr)` and the
entry's sequence number is compared against `(lower, ack_nr]` with the
wraparound split on `lower < ack_nr`. -/
def coveredBy (ack_nr seq_nr : Nat) : Bool :=
  let lower := wrappingSub16 ack_nr ack_nr
  if lower < ack_nr then
    decide (seq_nr > lower) && decide (seq_nr ≤ ack_nr)
  else
    decide (seq_nr > lower) || decide (seq_nr ≤ ack_nr)

/-- The RTT-estimator update applied to a popped entry that was sent exactly
once (`set_their_ack`, the `num_sends == 1` branch): `delta` is the absolute
difference between the current estimate and the sample, the variance gains
`(delta - variance) / 4` (truncated `i64` division), and the estimate moves
an eighth of the way toward the sample. -/
def rttOnAck (rtt : Nat) (rtt_variance : Int) (packet_rtt : Nat) : Nat × Int :=
  let delta : Int := |(rtt : Int) - (packet_rtt : Int)|
  let rtt_variance := rtt_variance + (delta - rtt_variance).tdiv 4
  let rtt := if rtt ≥ packet_rtt then rtt - (rtt - packet_rtt) / 8 else rtt + (packet_rtt - rtt) / 8
  (rtt, rtt_variance)

/-- The `loop` of `set_their_ack`: pop covered entries from the front,
feeding each one that was sent exactly once into the RTT estimator. -/
def ackLoop (now ack_nr : Nat) : List Entry → Nat → Int → List Entry × Nat × Int
  | [], rtt, rtt_variance => ([], rtt, rtt_variance)
  | e :: rest, rtt, rtt_variance =>
    if coveredBy ack_nr e.packet.seq_nr then
      if e.num_sends = 1 then
        let packet_rtt := asMs (now - e.last_sent_at.getD 0)
        let rv := rttOnAck rtt rtt_variance packet_rtt
        ackLoop now ack_nr rest rv.1 rv.2
      else
        ackLoop now ack_nr rest rtt rtt_variance
    else
      (e :: rest, rtt, rtt_variance)

/-- Embeds `OutQueue::set_their_ack`. -/
def set_their_ack (q : OutQueue) (ack_nr now : Nat) : OutQueue :=
  let r := ackLoop now ack_nr q.packets q.rtt q.rtt_variance
  { q with packets := r.1, rtt := r.2.1, rtt_variance := r.2.2 }

/-- Embeds `OutQueue::set_local_window`; the `assert!(val <= u32::MAX)` is modelled
by `none` (panic) on out-of-range input. -/
def set_local_window (q : OutQueue) (val : Nat) : Option OutQueue :=
  if val ≤ 4294967295 then
    some { q with state := { q.state with local_window := val } }
  else
    none

/-- Embeds `OutQueue::set_local_ack`. -/
def set_local_ack (q : OutQueue) (val : Nat) : OutQueue :=
  { q with state := { q.state with local_ack := some val } }

/-- Embeds `OutQueue::socket_timeout`, in milliseconds. -/
def socket_timeout (q : OutQueue) : Nat :=
  let timeout : Int := (q.rtt : Int) + q.rtt_variance
  if timeout > 500 then timeout.toNat else 500

/-- The body of `OutQueue::push` past its assertion: stamp the connection id
(except on SYN packets), assign the sequence number, increment `seq_nr` with
16-bit wraparound, and append the entry at the back. -/
def pushCore (q : OutQueue) (packet : Packet) : OutQueue :=
  let packet := if packet.ty ≠ PTy.syn then { packet with connection_id := q.state.connection_id } else packet
  let packet := { packet with seq_nr := q.state.seq_nr }
  { q with
    packets := q.packets ++ [{ packet := packet, num_sends := 0, last_sent_at := none, acked := false }],
    state := { q.state with seq_nr := (q.state.seq_nr + 1) % 65536 } }

/-- Embeds `OutQueue::push`; the `assert!(packet.ty() != Type::State)` is modelled
by `none` (panic) on a State packet. -/
def push (q : OutQueue) (packet : Packet) : Option OutQueue :=
  if packet.ty = PTy.state then none else some (pushCore q packet)

/-- Embeds `OutQueue::in_flight`: the number of entries sent at least once and not
acked. -/
def in_flight (q : OutQueue) : Nat :=
  (q.packets.filter (fun p => p.last_sent_at.isSome && !p.acked)).length

/-- Embeds `OutQueue::buffered`: total payload bytes of all queued entries. -/
def buffered (q : OutQueue) : Nat :=
  (q.packets.map (fun p => p.packet.payload.length)).sum

/-- Embeds `OutQueue::is_writable`. -/
def is_writable (q : OutQueue) : Bool :=
  buffered q < MAX_WINDOW_SIZE

/-- The `while rem > HEADER_LEN` loop of `OutQueue::write`: slice off a
chunk of at most `min(MAX_PACKET_SIZE, min(src.len(), rem - HEADER_LEN))`
bytes, enqueue it as a Data packet, charge `packet_len + HEADER_LEN` against
the remaining budget, and accumulate the consumed byte count. -/
def writeLoop (q : OutQueue) (src : List Nat) (rem len : Nat) : OutQueue × Nat :=
  if rem > HEADER_LEN then
    let packet_len := min MAX_PACKET_SIZE (min src.length (rem - HEADER_LEN))
    if _h : packet_len = 0 then
      (q, len)
    else
      writeLoop (pushCore q (Packet.dataP (src.take packet_len)))
        (src.drop packet_len) (rem - (packet_len + HEADER_LEN)) (len + packet_len)
  else
    (q, len)
termination_by src.length
decreasing_by
  simp only [List.length_drop]
  omega

/-- Result of `OutQueue::write` (`io::Result<usize>`): the consumed byte
count, or the `WouldBlock` error. -/
inductive WriteResult where
  | ok (n : Nat)
  | wouldBlock
deriving DecidableEq, Repr

/-- Embeds `OutQueue::write`: a zero-length write returns 0 immediately; if the
in-flight count has reached `min(max_window, peer_window)` the call
would-blocks without touching the state; otherwise the write loop consumes
input against the remaining budget. -/
def write (q : OutQueue) (src : List Nat) : WriteResult × OutQueue :=
  if src.length = 0 then
    (WriteResult.ok 0, q)
  else
    let cur_window := in_flight q
    let max := Nat.min q.max_window q.state.peer_window
    if cur_window ≥ max then
      (WriteResult.wouldBlock, q)
    else
      let r := writeLoop q src (max - cur_window) 0
      (WriteResult.ok r.2, r.1)

/-- Stamp the four per-send header fields, as `next()` does before handing
out a packet. -/
def stampPacket (ts diff ack wnd : Nat) (p : Packet) : Packet :=
  { p with timestamp := ts, timestamp_diff := diff, ack_nr := ack, wnd_size := wnd }

/-- Stamp a queued entry's packet. -/
def stampEntry (ts diff ack wnd : Nat) (e : Entry) : Entry :=
  { e with packet := stampPacket ts diff ack wnd e.packet }

/-- The transmit cursor's target (`enum Item`): a queued entry, identified
by its position in the queue, or a synthesized State packet. -/
inductive Item where
  | entry (i : Nat)
  | state (p : Packet)
deriving DecidableEq, Repr

/-- The `for entry in &mut self.packets` scan of `next()`: find the first
entry never sent, stamp it, and report its position together with the
updated queue. -/
def nextScan (ts diff ack wnd : Nat) : List Entry → Option (Nat × List Entry)
  | [] => none
  | e :: rest =>
    if e.last_sent_at.isSome then
      match nextScan ts diff ack wnd rest with
      | some (i, l) => some (i + 1, e :: l)
      | none => none
    else
      some (0, stampEntry ts diff ack wnd e :: rest)

/-- Embeds `OutQueue::next`: the first unsent queued entry, else a synthesized
State packet when an ack is owed (`local_ack != last_ack`), else nothing.
Returns the decision together with the (possibly restamped) queue. -/
def next (q : OutQueue) (now : Nat) : Option Item × OutQueue :=
  let ts := timestamp q now
  let diff := q.state.their_delay
  let ack := (q.state.local_ack).getD 0
  let wnd := q.state.local_window
  match nextScan ts diff ack wnd q.packets with
  | some (i, packets) => (some (Item.entry i), { q with packets := packets })
  | none =>
    if q.state.local_ack ≠ q.state.last_ack then
      let p := { Packet.stateP with connection_id := q.state.connection_id, seq_nr := q.state.seq_nr }
      (some (Item.state (stampPacket ts diff ack wnd p)), q)
    else
      (none, q)

/-- Mark the entry at position `i` as sent now (`num_sends += 1`,
`last_sent_at = Some(now)`). -/
def sendAt (now : Nat) : List Entry → Nat → List Entry
  | [], _ => []
  | e :: rest, 0 => { e with num_sends := e.num_sends + 1, last_sent_at := some now } :: rest
  | e :: rest, i + 1 => e :: sendAt now rest i

/-- Embeds `Next::sent`: on an entry cursor, bump that entry's send bookkeeping; on
either cursor, record `last_ack := local_ack`. -/
def sent (q : OutQueue) (it : Item) (now : Nat) : OutQueue :=
  match it with
  | Item.entry i =>
    { q with packets := sendAt now q.packets i,
             state := { q.state with last_ack := q.state.local_ack } }
  | Item.state _ =>
    { q with state := { q.state with last_ack := q.state.local_ack } }

/-- The position of the first never-sent entry, if any. -/
def firstUnsent : List Entry → Option Nat
  | [] => none
  | e :: rest => if e.last_sent_at.isSome then (firstUnsent rest).map (· + 1) else some 0

/-! ## Specification-side definitions

These follow the specification's wording, to be compared against the
embedded code. -/

/-- Specification-side: "bytes currently in flight" — the total payload
bytes of entries sent at least once and not acked (the spec's §4.2 window
formula speaks of bytes, the code's `in_flight` counts packets). -/
def bytesInFlightSpec (q : OutQueue) : Nat :=
  ((q.packets.filter (fun p => p.last_sent_at.isSome && !p.acked)).map
    (fun p => p.packet.payload.length)).sum

/-- Specification-side RTT update, worded as the spec does:
`variance += (|rtt - sample| - variance) / 4` using the pre-update `rtt`,
then `rtt` moves toward the sample by an eighth of their distance. -/
def rttStepSpec (rtt : Nat) (rtt_variance : Int) (sample : Nat) : Nat × Int :=
  let rtt_variance := rtt_variance + (|(rtt : Int) - (sample : Int)| - rtt_variance).tdiv 4
  let rtt := if sample ≥ rtt then rtt + (sample - rtt) / 8 else rtt - (rtt - sample) / 8
  (rtt, rtt_variance)

/-- Specification-side: fold of the RTT estimator over the removed entries,
in removal order, where only entries sent exactly once contribute a sample
(the elapsed time since their single send). -/
def rttFold (now : Nat) (rv : Nat × Int) (removed : List Entry) : Nat × Int :=
  removed.foldl
    (fun rv e =>
      if e.num_sends = 1 then rttStepSpec rv.1 rv.2 (asMs (now - e.last_sent_at.getD 0)) else rv)
    rv

/-- Specification-side: the payload sizes produced by the fragmentation
loop — each chunk is the minimum of the payload cap, the remaining input
and the remaining window budget after header overhead, with the consumed
budget accumulated across chunks. -/
def chunkLens (cap len rem : Nat) : List Nat :=
  if rem > HEADER_LEN then
    let c := min cap (min len (rem - HEADER_LEN))
    if _h : c = 0 then [] else c :: chunkLens cap (len - c) (rem - (c + HEADER_LEN))
  else
    []
termination_by len
decreasing_by omega

/-- Iterated `push`, propagating a panic. -/
def pushList (q : OutQueue) : List Packet → Option OutQueue
  | [] => some q
  | p :: ps => (push q p).bind (fun q => pushList q ps)

/-- A queue whose peer advertises a 10-byte window: positive budget, but too
small to carry any payload past the header. -/
def tinyWindowQueue : OutQueue :=
  { packets := [],
    state := { connection_id := 1, seq_nr := 0, local_ack := none, last_ack := none,
               peer_window := 10, local_window := 0, created_at := 0, their_delay := 0 },
    rtt := 0, rtt_variance := 0, max_window := 1400 }

/-- A queue whose peer advertises a zero window: every non-empty write
would-blocks. -/
def zeroWindowQueue : OutQueue :=
  { packets := [],
    state := { connection_id := 1, seq_nr := 0, local_ack := none, last_ack := none,
               peer_window := 0, local_window := 0, created_at := 0, their_delay := 0 },
    rtt := 0, rtt_variance := 0, max_window := 1400 }

/-- A queue with two never-sent entries and an ack owed. -/
def cursorQueue : OutQueue :=
  { packets := [
      { packet := { Packet.dataP [1] with seq_nr := 1, connection_id := 7 },
        num_sends := 0, last_sent_at := none, acked := false },
      { packet := { Packet.dataP [2] with seq_nr := 2, connection_id := 7 },
        num_sends := 0, last_sent_at := none, acked := false }],
    state := { connection_id := 7, seq_nr := 3, local_ack := some 9, last_ack := none,
               peer_window := 65536, local_window := 0, created_at := 0, their_delay := 0 },
    rtt := 0, rtt_variance := 0, max_window := 1400 }

/-- An empty queue that owes an ack (`local_ack` is set, nothing sent
yet). -/
def ackOwedQueue : OutQueue :=
  { packets := [],
    state := { connection_id := 8, seq_nr := 4, local_ack := some 11, last_ack := none,
               peer_window := 65536, local_window := 0, created_at := 0, their_delay := 0 },
    rtt := 0, rtt_variance := 0, max_window := 1400 }

/-- The State packet `next` synthesizes for `ackOwedQueue` at time 0. -/
def ackOwedPacket : Packet :=
  { ty := PTy.state, connection_id := 8, seq_nr := 4, ack_nr := 11,
    timestamp := 0, timestamp_diff := 0, wnd_size := 0, payload := [] }

/-- An empty queue that owes an ack, used for the sequence-number
observation on the synthesized pure-ack cursor. -/
def pureAckQueue : OutQueue :=
  { packets := [],
    state := { connection_id := 7, seq_nr := 5, local_ack := some 123, last_ack := none,
               peer_window := 65536, local_window := 0, created_at := 0, their_delay := 0 },
    rtt := 0, rtt_variance := 0, max_window := 1400 }

/-- The State packet `next` synthesizes for `pureAckQueue` at time 0. -/
def pureAckPacket : Packet :=
  { ty := PTy.state, connection_id := 7, seq_nr := 5, ack_nr := 123,
    timestamp := 0, timestamp_diff := 0, wnd_size := 0, payload := [] }

/-- A one-entry queue for observing `sent`'s frame conditions. -/
def frameQueue : OutQueue :=
  { packets := [{ packet := Packet.dataP [5], num_sends := 0, last_sent_at := none,
                  acked := false }],
    state := { connection_id := 9, seq_nr := 2, local_ack := some 9, last_ack := none,
               peer_window := 65536, local_window := 0, created_at := 0, their_delay := 0 },
    rtt := 0, rtt_variance := 0, max_window := 1400 }

/-! ## Supporting lemmas -/

/-- The list component of `ackLoop` is the maximal covered run dropped from
the front. -/
theorem ackLoop_fst (now ack_nr : Nat) (l : List Entry) :
    ∀ (r : Nat) (v : Int),
      (ackLoop now ack_nr l r v).1 = l.dropWhile (fun e => coveredBy ack_nr e.packet.seq_nr) := by
  induction l with
  | nil => intro r v; simp [ackLoop, List.dropWhile]
  | cons e rest ih =>
    intro r v
    rw [ackLoop, List.dropWhile]
    by_cases hc : coveredBy ack_nr e.packet.seq_nr
    · rw [if_pos hc, hc]
      by_cases hn : e.num_sends = 1
      · rw [if_pos hn]; exact ih _ _
      · rw [if_neg hn]; exact ih _ _
    · rw [if_neg hc]
      simp [Bool.of_not_eq_true hc]

/-- The estimator component of `ackLoop` is the specification-side fold
over the removed (covered) front run. -/
theorem ackLoop_snd (now ack_nr : Nat) (l : List Entry) :
    ∀ (r : Nat) (v : Int),
      (ackLoop now ack_nr l r v).2
        = rttFold now (r, v) (l.takeWhile (fun e => coveredBy ack_nr e.packet.seq_nr)) := by
  induction l with
  | nil => intro r v; simp [ackLoop, rttFold, List.takeWhile]
  | cons e rest ih =>
    intro r v
    rw [ackLoop, List.takeWhile]
    by_cases hc : coveredBy ack_nr e.packet.seq_nr
    · rw [if_pos hc, hc]
      by_cases hn : e.num_sends = 1
      · rw [if_pos hn, ih]
        have hstep : rttOnAck r v (asMs (now - e.last_sent_at.getD 0))
            = rttStepSpec r v (asMs (now - e.last_sent_at.getD 0)) := by
          unfold rttOnAck rttStepSpec
          dsimp only
          rw [Prod.mk.injEq]
          refine ⟨?_, rfl⟩
          split_ifs <;> omega
        rw [rttFold, rttFold, List.foldl_cons, if_pos hn, ← hstep]
      · rw [if_neg hn, ih]
        rw [rttFold, rttFold, List.foldl_cons, if_neg hn]
    · rw [if_neg hc]
      simp [Bool.of_not_eq_true hc, rttFold]

/-! ## Claims -/

/-- Claim C1: `set_their_ack` removes exactly the maximal covered run at the
front of the queue — it drops entries from the front while they are covered
by the acknowledged range and stops at the first uncovered one, so only a
front run is ever removed; if the oldest entry is not covered, the queue is
unchanged. -/
theorem set_their_ack_front_run (q : OutQueue) (ack_nr now : Nat) :
    (set_their_ack q ack_nr now).packets
        = q.packets.dropWhile (fun e => coveredBy ack_nr e.packet.seq_nr)
    ∧ (∀ e es, q.packets = e :: es → coveredBy ack_nr e.packet.seq_nr = false →
        (set_their_ack q ack_nr now).packets = q.packets) := by
  constructor
  · show (ackLoop now ack_nr q.packets q.rtt q.rtt_variance).1 = _
    exact ackLoop_fst now ack_nr q.packets q.rtt q.rtt_variance
  · intro e es hq hc
    show (ackLoop now ack_nr q.packets q.rtt q.rtt_variance).1 = _
    rw [ackLoop_fst, hq, List.dropWhile]
    simp [hc]

/-- Witness for C1: an ack of 10 does not cover a front entry with sequence
number 50, so nothing is removed. -/
theorem set_their_ack_front_run_witness :
    (set_their_ack
      { packets := [{ packet := { Packet.dataP [] with seq_nr := 50 }, num_sends := 1,
                      last_sent_at := some 0, acked := false }],
        state := { connection_id := 7, seq_nr := 51, local_ack := none, last_ack := none,
                   peer_window := 65536, local_window := 0, created_at := 0, their_delay := 0 },
        rtt := 0, rtt_variance := 0, max_window := 1400 } 10 99).packets
      = [{ packet := { Packet.dataP [] with seq_nr := 50 }, num_sends := 1,
           last_sent_at := some 0, acked := false }] :=
  (set_their_ack_front_run _ 10 99).2 _ _ rfl (by decide)

/-- Claim C3 counterexample: a round trip of 30.5 seconds exceeds 30
seconds, yet `as_ms` yields 30500 ms rather than the claimed 30000 ms clamp,
and `set_their_ack` feeds that unclamped sample into the estimator: from
`rtt = 0` the new estimate is `30500 / 8 = 3812`, not `30000 / 8 = 3750`. -/
theorem set_their_ack_clamp_cex :
    30 * 1000000000 < (30500000000 : Nat)
    ∧ asMs 30500000000 = 30500
    ∧ (set_their_ack
        { packets := [{ packet := { Packet.dataP [] with seq_nr := 1 }, num_sends := 1,
                        last_sent_at := some 0, acked := false }],
          state := { connection_id := 7, seq_nr := 2, local_ack := none, last_ack := none,
                     peer_window := 65536, local_window := 0, created_at := 0, their_delay := 0 },
          rtt := 0, rtt_variance := 0, max_window := 1400 } 1 30500000000).rtt = 3812
    ∧ (rttStepSpec 0 0 30000).1 = 3750
    ∧ (3812 : Nat) ≠ 3750 := by
  refine ⟨by norm_num, by norm_num [asMs], ?_, by norm_num [rttStepSpec], by norm_num⟩
  decide

/-- Claim C3 (amended): during `set_their_ack` the estimator state is the
fold, over the removed entries in order, of the update step applied only to
entries with `num_sends` exactly 1 (entries sent 0 or ≥ 2 times are
skipped); the sample is the elapsed time since the single send, and it is
replaced by 30 000 ms exactly when the elapsed whole-second count exceeds
30 (durations of 31 s or more; durations between 30 and 31 s keep their
actual millisecond value). -/
theorem set_their_ack_rtt_estimator (q : OutQueue) (ack_nr now : Nat) :
    ((set_their_ack q ack_nr now).rtt, (set_their_ack q ack_nr now).rtt_variance)
        = rttFold now (q.rtt, q.rtt_variance)
            (q.packets.takeWhile (fun e => coveredBy ack_nr e.packet.seq_nr))
    ∧ (∀ d : Nat, 30 < d / 1000000000 → asMs d = 30000) := by
  constructor
  · show ((ackLoop now ack_nr q.packets q.rtt q.rtt_variance).2.1,
          (ackLoop now ack_nr q.packets q.rtt q.rtt_variance).2.2) = _
    rw [← ackLoop_snd now ack_nr q.packets q.rtt q.rtt_variance]
  · intro d hd
    simp [asMs, hd]

/-- Witness for C3: a queue with two covered entries, one sent twice (its
31-second age is ignored) and one sent once (sample 100 ms), yields
`rtt = 12`, `variance = 25`; and a 31-second duration is clamped. -/
theorem set_their_ack_rtt_estimator_witness :
    ((set_their_ack
        { packets := [{ packet := { Packet.dataP [] with seq_nr := 1 }, num_sends := 2,
                        last_sent_at := some 0, acked := false },
                      { packet := { Packet.dataP [] with seq_nr := 2 }, num_sends := 1,
                        last_sent_at := some 0, acked := false }],
          state := { connection_id := 7, seq_nr := 3, local_ack := none, last_ack := none,
                     peer_window := 65536, local_window := 0, created_at := 0, their_delay := 0 },
          rtt := 0, rtt_variance := 0, max_window := 1400 } 2 100000000).rtt,
      (set_their_ack
        { packets := [{ packet := { Packet.dataP [] with seq_nr := 1 }, num_sends := 2,
                        last_sent_at := some 0, acked := false },
                      { packet := { Packet.dataP [] with seq_nr := 2 }, num_sends := 1,
                        last_sent_at := some 0, acked := false }],
          state := { connection_id := 7, seq_nr := 3, local_ack := none, last_ack := none,
                     peer_window := 65536, local_window := 0, created_at := 0, their_delay := 0 },
          rtt := 0, rtt_variance := 0, max_window := 1400 } 2 100000000).rtt_variance)
      = (12, 25)
    ∧ asMs 31000000000 = 30000 := by
  constructor
  · exact ((set_their_ack_rtt_estimator _ 2 100000000).1).trans (by decide)
  · exact (set_their_ack_rtt_estimator (new 0 0 none) 0 0).2 31000000000 (by norm_num)

/-- Claim C6: `socket_timeout` is `max(rtt + rtt_variance, 500)`
milliseconds, hence never below 500 ms (in particular it is 500 ms on a
fresh connection where both are zero). -/
theorem socket_timeout_is_max (q : OutQueue) :
    socket_timeout q = (max ((q.rtt : Int) + q.rtt_variance) 500).toNat
    ∧ 500 ≤ socket_timeout q := by
  unfold socket_timeout
  dsimp only
  constructor
  · split <;> omega
  · split <;> omega

/-- Claim C9: the two `assert!` contracts — a local window beyond the
32-bit range, or pushing a pure-ack (State) packet, abort (modelled as
`none`); all in-range / non-State inputs pass the assertions. -/
theorem assertion_contracts (q : OutQueue) (v : Nat) (p : Packet) :
    (4294967295 < v → set_local_window q v = none)
    ∧ (v ≤ 4294967295 →
        ∃ q', set_local_window q v = some q' ∧ q'.state.local_window = v)
    ∧ (p.ty = PTy.state → push q p = none)
    ∧ (p.ty ≠ PTy.state → (push q p).isSome = true) := by
  refine ⟨fun hv => ?_, fun hv => ?_, fun hp => ?_, fun hp => ?_⟩
  · rw [set_local_window, if_neg (by omega)]
  · rw [set_local_window, if_pos hv]
    exact ⟨_, rfl, rfl⟩
  · rw [push, if_pos hp]
  · rw [push, if_neg hp]
    rfl

/-- Witness for C9: `2^32` is rejected, `2^32 - 1` is accepted, a State
packet is rejected, a Data packet is accepted. -/
theorem assertion_contracts_witness :
    set_local_window (new 7 5 none) 4294967296 = none
    ∧ (∃ q', set_local_window (new 7 5 none) 4294967295 = some q'
        ∧ q'.state.local_window = 4294967295)
    ∧ push (new 7 5 none) Packet.stateP = none
    ∧ (push (new 7 5 none) (Packet.dataP [1])).isSome = true :=
  ⟨(assertion_contracts (new 7 5 none) 4294967296 Packet.stateP).1 (by norm_num),
   (assertion_contracts (new 7 5 none) 4294967295 Packet.stateP).2.1 (by norm_num),
   (assertion_contracts (new 7 5 none) 0 Packet.stateP).2.2.1 rfl,
   (assertion_contracts (new 7 5 none) 0 (Packet.dataP [1])).2.2.2 (by decide)⟩

/-- Claim C2 counterexample: with a 10-byte peer window the available
window budget (10 bytes, no payload in flight) cannot carry a non-empty
payload past the 20-byte header, so the claim demands a would-block
failure; the code instead returns `Ok(0)` and changes nothing, because its
blocking test only compares the in-flight *packet count* against the
window. -/
theorem write_would_block_cex :
    Nat.min tinyWindowQueue.max_window tinyWindowQueue.state.peer_window
        - bytesInFlightSpec tinyWindowQueue ≤ HEADER_LEN
    ∧ write tinyWindowQueue [7] = (WriteResult.ok 0, tinyWindowQueue)
    ∧ (write tinyWindowQueue [7]).1 ≠ WriteResult.wouldBlock := by
  have hwl : writeLoop tinyWindowQueue [7] 10 0 = (tinyWindowQueue, 0) := by
    rw [writeLoop]
    norm_num [HEADER_LEN]
  have hw : write tinyWindowQueue [7] = (WriteResult.ok 0, tinyWindowQueue) := by
    have hif : in_flight tinyWindowQueue = 0 := by decide
    simp only [write, hif]
    norm_num [tinyWindowQueue]
    have h2 := hwl
    norm_num [tinyWindowQueue] at h2
    rw [h2]
    exact ⟨rfl, rfl⟩
  exact ⟨by decide, hw, by rw [hw]; decide⟩

/-- Claim C2 (amended): a write fails with would-block exactly when the
input is non-empty and the number of in-flight packets (a packet count,
not a byte count) has reached `min(max_window, peer_window)`; on
would-block the state is unchanged, and a zero-length write is a no-op
returning 0.  (A non-empty write whose positive remaining budget is at most
the header size returns `Ok(0)` without enqueuing anything instead of
blocking.) -/
theorem write_would_block_iff (q : OutQueue) (src : List Nat) :
    ((write q src).1 = WriteResult.wouldBlock ↔
      src ≠ [] ∧ Nat.min q.max_window q.state.peer_window ≤ in_flight q)
    ∧ ((write q src).1 = WriteResult.wouldBlock → (write q src).2 = q)
    ∧ write q [] = (WriteResult.ok 0, q) := by
  refine ⟨?_, ?_, by simp only [write]; norm_num⟩
  · by_cases h0 : src.length = 0
    · simp only [write, if_pos h0]
      simp [List.length_eq_zero.mp h0]
    · simp only [write, if_neg h0]
      by_cases hcm : in_flight q ≥ Nat.min q.max_window q.state.peer_window
      · simp only [if_pos hcm]
        constructor
        · intro _
          exact ⟨fun hnil => h0 (by simp [hnil]), hcm⟩
        · intro _
          trivial
      · simp only [if_neg hcm]
        constructor
        · intro h
          exact absurd h (by simp)
        · rintro ⟨-, hmin⟩
          exact absurd hmin hcm
  · intro hwb
    by_cases h0 : src.length = 0
    · simp only [write, if_pos h0] at hwb
      exact absurd hwb (by simp)
    · simp only [write, if_neg h0] at hwb ⊢
      by_cases hcm : in_flight q ≥ Nat.min q.max_window q.state.peer_window
      · rw [if_pos hcm]
      · rw [if_neg hcm] at hwb
        exact absurd hwb (by simp)

/-- Witness for C2 (amended): with a zero peer window a one-byte write
would-blocks and leaves the queue unchanged; the empty write is a no-op. -/
theorem write_would_block_iff_witness :
    (write zeroWindowQueue [1]).1 = WriteResult.wouldBlock
    ∧ (write zeroWindowQueue [1]).2 = zeroWindowQueue
    ∧ write zeroWindowQueue [] = (WriteResult.ok 0, zeroWindowQueue) := by
  have h := write_would_block_iff zeroWindowQueue [1]
  have hwb : (write zeroWindowQueue [1]).1 = WriteResult.wouldBlock :=
    h.1.mpr ⟨by decide, by decide⟩
  exact ⟨hwb, h.2.1 hwb, (write_would_block_iff zeroWindowQueue []).2.2⟩

/-- Claim C8: pushing a list of (non-State) packets assigns strictly
sequential sequence numbers modulo 65536 starting at the current `seq_nr`
— the k-th pushed packet gets `(seq_nr + k) % 65536` and the counter ends
at `(seq_nr + n) % 65536`, so wraparound from 65535 to 0 is handled. -/
theorem push_seq_sequential (q : OutQueue) (ps : List Packet)
    (h1 : q.state.seq_nr < 65536) (h2 : ∀ p ∈ ps, p.ty ≠ PTy.state) :
    ∃ q' newEntries, pushList q ps = some q'
      ∧ q'.packets = q.packets ++ newEntries
      ∧ newEntries.length = ps.length
      ∧ q'.state.seq_nr = (q.state.seq_nr + ps.length) % 65536
      ∧ ∀ k, k < ps.length →
          (newEntries[k]?).map (fun e => e.packet.seq_nr)
            = some ((q.state.seq_nr + k) % 65536) := by
  induction ps generalizing q with
  | nil =>
    refine ⟨q, [], rfl, by simp, rfl, by simp; omega, fun k hk => absurd hk (by simp)⟩
  | cons p ps ih =>
    have hp : p.ty ≠ PTy.state := h2 p (List.mem_cons_self _ _)
    have hpush : push q p = some (pushCore q p) := by rw [push, if_neg hp]
    have hseq1 : (pushCore q p).state.seq_nr = (q.state.seq_nr + 1) % 65536 := rfl
    obtain ⟨q', ne, hpl, hpk, hlen, hs, hidx⟩ :=
      ih (pushCore q p) (by rw [hseq1]; omega) (fun x hx => h2 x (List.mem_cons_of_mem _ hx))
    refine ⟨q',
      { packet :=
          { (if p.ty ≠ PTy.syn then { p with connection_id := q.state.connection_id } else p)
              with seq_nr := q.state.seq_nr },
        num_sends := 0, last_sent_at := none, acked := false } :: ne,
      ?_, ?_, ?_, ?_, ?_⟩
    · rw [pushList, hpush]
      exact hpl
    · rw [hpk]
      show _ = q.packets ++ ([_] ++ ne)
      rw [← List.append_assoc]
      rfl
    · simp [hlen]
    · rw [hs, hseq1]
      simp only [List.length_cons]
      omega
    · intro k hk
      match k with
      | 0 =>
        have h0 : (q.state.seq_nr + 0) % 65536 = q.state.seq_nr := by omega
        simp only [List.getElem?_cons_zero, Option.map_some', h0]
      | (j + 1) =>
        simp only [List.getElem?_cons_succ]
        rw [hidx j (by simpa using hk), hseq1]
        congr 1
        omega

/-- Witness for C8: pushing two data packets from `seq_nr = 65535` assigns
65535 then 0 (wraparound) and leaves the counter at 1. -/
theorem push_seq_sequential_witness :
    ∃ q' newEntries,
      pushList (new 7 65535 none) [Packet.dataP [1], Packet.dataP [2]] = some q'
      ∧ q'.packets = (new 7 65535 none).packets ++ newEntries
      ∧ newEntries.length = 2
      ∧ q'.state.seq_nr = (65535 + 2) % 65536
      ∧ ∀ k, k < 2 →
          (newEntries[k]?).map (fun e => e.packet.seq_nr) = some ((65535 + k) % 65536) :=
  push_seq_sequential (new 7 65535 none) [Packet.dataP [1], Packet.dataP [2]]
    (by norm_num [new]) (by decide)

/-- The write loop appends Data entries whose payload sizes are the chunk
sizes of the greedy fragmentation recurrence (with the code's
`MAX_PACKET_SIZE` cap), and returns the accumulated byte count. -/
theorem writeLoop_spec (src : List Nat) (q : OutQueue) (rem acc : Nat) :
    ((writeLoop q src rem acc).1.packets.map (fun e => (e.packet.ty, e.packet.payload.length))
        = q.packets.map (fun e => (e.packet.ty, e.packet.payload.length))
          ++ (chunkLens MAX_PACKET_SIZE src.length rem).map (fun c => (PTy.data, c)))
    ∧ (writeLoop q src rem acc).2 = acc + (chunkLens MAX_PACKET_SIZE src.length rem).sum := by
  rw [writeLoop, chunkLens]
  by_cases hrem : rem > HEADER_LEN
  · rw [if_pos hrem, if_pos hrem]
    dsimp only
    by_cases h0 : min MAX_PACKET_SIZE (min src.length (rem - HEADER_LEN)) = 0
    · rw [dif_pos h0, dif_pos h0]
      simp
    · rw [dif_neg h0, dif_neg h0]
      have hcle : min MAX_PACKET_SIZE (min src.length (rem - HEADER_LEN)) ≤ src.length := by
        omega
      have hlen : (src.drop (min MAX_PACKET_SIZE (min src.length (rem - HEADER_LEN)))).length
          = src.length - min MAX_PACKET_SIZE (min src.length (rem - HEADER_LEN)) := by
        simp
      have ih := writeLoop_spec
        (src.drop (min MAX_PACKET_SIZE (min src.length (rem - HEADER_LEN))))
        (pushCore q (Packet.dataP (src.take (min MAX_PACKET_SIZE (min src.length (rem - HEADER_LEN))))))
        (rem - (min MAX_PACKET_SIZE (min src.length (rem - HEADER_LEN)) + HEADER_LEN))
        (acc + min MAX_PACKET_SIZE (min src.length (rem - HEADER_LEN)))
      rw [hlen] at ih
      refine ⟨?_, ?_⟩
      · rw [ih.1]
        have hpc : (pushCore q (Packet.dataP
              (src.take (min MAX_PACKET_SIZE (min src.length (rem - HEADER_LEN)))))).packets.map
                (fun e => (e.packet.ty, e.packet.payload.length))
            = q.packets.map (fun e => (e.packet.ty, e.packet.payload.length))
              ++ [(PTy.data, min MAX_PACKET_SIZE (min src.length (rem - HEADER_LEN)))] := by
          simp only [pushCore, Packet.dataP]
          rw [List.map_append]
          simp [Nat.min_eq_left hcle]
        rw [hpc, List.append_assoc]
        rfl
      · rw [ih.2]
        simp only [List.sum_cons]
        omega
  · rw [if_neg hrem, if_neg hrem]
    simp
termination_by src.length
decreasing_by simp only [List.length_drop]; omega

/-- While the remaining budget never exceeds `MAX_PACKET_SIZE`, the code's
payload cap of `MAX_PACKET_SIZE` never binds, so the chunk sizes coincide
with those capped at the true maximum payload size `MAX_DATA_SIZE`. -/
theorem chunkLens_cap (len rem : Nat) (h : rem ≤ MAX_PACKET_SIZE) :
    chunkLens MAX_PACKET_SIZE len rem = chunkLens MAX_DATA_SIZE len rem := by
  rw [chunkLens, chunkLens]
  by_cases hrem : rem > HEADER_LEN
  · rw [if_pos hrem, if_pos hrem]
    dsimp only
    have hd : MAX_DATA_SIZE = MAX_PACKET_SIZE - HEADER_LEN := rfl
    have hceq : min MAX_PACKET_SIZE (min len (rem - HEADER_LEN))
        = min MAX_DATA_SIZE (min len (rem - HEADER_LEN)) := by
      omega
    rw [hceq]
    by_cases h0 : min MAX_DATA_SIZE (min len (rem - HEADER_LEN)) = 0
    · rw [dif_pos h0, dif_pos h0]
    · rw [dif_neg h0, dif_neg h0]
      congr 1
      exact chunkLens_cap _ _ (by omega)
  · rw [if_neg hrem, if_neg hrem]
termination_by len
decreasing_by omega

/-- Empty input produces no chunks. -/
theorem chunkLens_len_zero (cap rem : Nat) : chunkLens cap 0 rem = [] := by
  rw [chunkLens]
  by_cases hrem : rem > HEADER_LEN
  · rw [if_pos hrem]
    dsimp only
    rw [dif_pos (by omega)]
  · rw [if_neg hrem]

/-- Claim C7: a successful `write` appends Data packets whose payload sizes
follow the greedy fragmentation recurrence — each chunk is the minimum of
the maximum payload size, the remaining input and the remaining window
budget after header overhead, with the consumed budget accumulated across
chunks — and the returned count is the total of those payload sizes.  (The
hypothesis `max_window ≤ MAX_PACKET_SIZE` is the code's own invariant:
`max_window` is initialized to `MAX_PACKET_SIZE` and never modified by this
component.) -/
theorem write_fragmentation (q : OutQueue) (src : List Nat) (n : Nat) (q' : OutQueue)
    (hmw : q.max_window ≤ MAX_PACKET_SIZE)
    (hw : write q src = (WriteResult.ok n, q')) :
    q'.packets.map (fun e => (e.packet.ty, e.packet.payload.length))
        = q.packets.map (fun e => (e.packet.ty, e.packet.payload.length))
          ++ (chunkLens MAX_DATA_SIZE src.length
                (Nat.min q.max_window q.state.peer_window - in_flight q)).map
              (fun c => (PTy.data, c))
    ∧ n = (chunkLens MAX_DATA_SIZE src.length
            (Nat.min q.max_window q.state.peer_window - in_flight q)).sum := by
  by_cases h0 : src.length = 0
  · simp only [write, if_pos h0] at hw
    have h1 := congrArg Prod.fst hw
    have h2 := congrArg Prod.snd hw
    simp only [Prod.fst, Prod.snd, WriteResult.ok.injEq] at h1 h2
    rw [h0, chunkLens_len_zero, ← h1, ← h2]
    simp
  · simp only [write, if_neg h0] at hw
    by_cases hcm : in_flight q ≥ Nat.min q.max_window q.state.peer_window
    · rw [if_pos hcm] at hw
      exact absurd (congrArg Prod.fst hw) (by simp)
    · rw [if_neg hcm] at hw
      have h1 := congrArg Prod.fst hw
      have h2 := congrArg Prod.snd hw
      simp only [Prod.fst, Prod.snd, WriteResult.ok.injEq] at h1 h2
      have hs := writeLoop_spec src q (Nat.min q.max_window q.state.peer_window - in_flight q) 0
      have hcap : Nat.min q.max_window q.state.peer_window - in_flight q ≤ MAX_PACKET_SIZE :=
        le_trans (Nat.sub_le _ _) (le_trans (Nat.min_le_left _ _) hmw)
      rw [chunkLens_cap _ _ hcap] at hs
      rw [← h2, ← h1]
      exact ⟨hs.1, by rw [hs.2]; omega⟩

/-- Witness for C7: writing 3 bytes into a fresh queue (budget 1400)
produces a single Data packet of payload size 3 and returns 3. -/
theorem write_fragmentation_witness :
    ((write (new 7 5 none) [1, 2, 3]).2).packets.map
        (fun e => (e.packet.ty, e.packet.payload.length))
      = (new 7 5 none).packets.map (fun e => (e.packet.ty, e.packet.payload.length))
        ++ (chunkLens MAX_DATA_SIZE ([1, 2, 3] : List Nat).length
              (Nat.min (new 7 5 none).max_window (new 7 5 none).state.peer_window
                - in_flight (new 7 5 none))).map (fun c => (PTy.data, c))
    ∧ (3 : Nat) = (chunkLens MAX_DATA_SIZE ([1, 2, 3] : List Nat).length
        (Nat.min (new 7 5 none).max_window (new 7 5 none).state.peer_window
          - in_flight (new 7 5 none))).sum := by
  have hwrite : write (new 7 5 none) [1, 2, 3]
      = (WriteResult.ok 3, pushCore (new 7 5 none) (Packet.dataP [1, 2, 3])) := by
    have hwl : writeLoop (new 7 5 none) [1, 2, 3] 1400 0
        = (pushCore (new 7 5 none) (Packet.dataP [1, 2, 3]), 3) := by
      rw [writeLoop]
      norm_num [HEADER_LEN, MAX_PACKET_SIZE]
      rw [writeLoop]
      norm_num [HEADER_LEN, MAX_PACKET_SIZE]
    have hif : in_flight (new 7 5 none) = 0 := by decide
    simp only [write, hif]
    norm_num [new, MAX_WINDOW_SIZE, MAX_PACKET_SIZE]
    have h2 := hwl
    norm_num [new, MAX_PACKET_SIZE, MAX_WINDOW_SIZE] at h2
    rw [h2]
    exact ⟨rfl, rfl⟩
  exact write_fragmentation (new 7 5 none) [1, 2, 3] 3 _ (by decide) (by rw [hwrite])

/-- Stamping does not change the send bookkeeping. -/
theorem stampEntry_last_sent_at (ts diff ack wnd : Nat) (e : Entry) :
    (stampEntry ts diff ack wnd e).last_sent_at = e.last_sent_at := rfl

/-- Restamping overwrites a previous stamp. -/
theorem stampEntry_stampEntry (ts diff ack wnd ts' diff' ack' wnd' : Nat) (e : Entry) :
    stampEntry ts diff ack wnd (stampEntry ts' diff' ack' wnd' e)
      = stampEntry ts diff ack wnd e := rfl

/-- Scanning the queue left by a successful scan gives the same result with
the new stamp values: the scan mutates only stamp fields, never the
selection. -/
theorem nextScan_restamp (a b c d : Nat) (l : List Entry) :
    ∀ i l', nextScan a b c d l = some (i, l') →
      ∀ a₂ b₂ c₂ d₂, nextScan a₂ b₂ c₂ d₂ l' = nextScan a₂ b₂ c₂ d₂ l := by
  induction l with
  | nil => intro i l' h; simp [nextScan] at h
  | cons e rest ih =>
    intro i l' h a₂ b₂ c₂ d₂
    by_cases hs : e.last_sent_at.isSome
    · rw [nextScan, if_pos hs] at h
      cases hr : nextScan a b c d rest with
      | none => rw [hr] at h; simp at h
      | some il =>
        rw [hr] at h
        obtain ⟨i0, l0⟩ := il
        simp only [Option.some.injEq, Prod.mk.injEq] at h
        obtain ⟨hi, hl⟩ := h
        subst hl
        rw [nextScan, if_pos hs, nextScan, if_pos hs, ih i0 l0 hr]
    · rw [nextScan, if_neg hs] at h
      simp only [Option.some.injEq, Prod.mk.injEq] at h
      obtain ⟨hi, hl⟩ := h
      subst hl
      rw [nextScan, nextScan, if_neg hs,
        if_neg (by rw [stampEntry_last_sent_at]; exact hs), stampEntry_stampEntry]

/-- The index a scan selects is the first never-sent position, independent
of the stamp values. -/
theorem nextScan_fst (a b c d : Nat) (l : List Entry) :
    (nextScan a b c d l).map Prod.fst = firstUnsent l := by
  induction l with
  | nil => rfl
  | cons e rest ih =>
    by_cases hs : e.last_sent_at.isSome
    · rw [nextScan, if_pos hs, firstUnsent, if_pos hs, ← ih]
      cases h : nextScan a b c d rest with
      | none => rfl
      | some il => obtain ⟨i, l'⟩ := il; rfl
    · rw [nextScan, if_neg hs, firstUnsent, if_neg hs]
      rfl

/-- After marking the selected entry as sent, the first never-sent position
is the first never-sent position strictly after the old one. -/
theorem firstUnsent_sendAt (a b c d : Nat) (l : List Entry) :
    ∀ i l', nextScan a b c d l = some (i, l') → ∀ now,
      firstUnsent (sendAt now l' i)
        = (firstUnsent (l.drop (i + 1))).map (fun k => i + 1 + k) := by
  induction l with
  | nil => intro i l' h; simp [nextScan] at h
  | cons e rest ih =>
    intro i l' h now
    by_cases hs : e.last_sent_at.isSome
    · rw [nextScan, if_pos hs] at h
      cases hr : nextScan a b c d rest with
      | none => rw [hr] at h; simp at h
      | some il =>
        rw [hr] at h
        obtain ⟨i0, l0⟩ := il
        simp only [Option.some.injEq, Prod.mk.injEq] at h
        obtain ⟨hi, hl⟩ := h
        subst hl
        subst hi
        simp only [sendAt]
        rw [firstUnsent, if_pos hs, ih i0 l0 hr now]
        rw [show i0 + 1 + 1 = i0 + 2 from rfl, List.drop_succ_cons]
        cases firstUnsent (rest.drop (i0 + 1)) with
        | none => rfl
        | some k =>
          simp only [Option.map_some']
          congr 1
          omega
    · rw [nextScan, if_neg hs] at h
      simp only [Option.some.injEq, Prod.mk.injEq] at h
      obtain ⟨hi, hl⟩ := h
      subst hl
      subst hi
      dsimp only [sendAt]
      simp only [firstUnsent, Option.isSome_some, eq_self_iff_true, if_true]
      rw [List.drop_succ_cons, List.drop_zero]
      cases firstUnsent rest with
      | none => rfl
      | some k =>
        simp only [Option.map_some']
        congr 1
        omega

/-- The function `sendAt` preserves the queue length. -/
theorem sendAt_length (now : Nat) : ∀ (l : List Entry) (i : Nat),
    (sendAt now l i).length = l.length := by
  intro l
  induction l with
  | nil => intro i; rfl
  | cons e rest ih =>
    intro i
    match i with
    | 0 => rfl
    | j + 1 => simp only [sendAt, List.length_cons, ih j]

/-- The function `sendAt` bumps exactly the addressed entry. -/
theorem sendAt_getElem_self (now : Nat) : ∀ (l : List Entry) (i : Nat),
    (sendAt now l i)[i]?
      = (l[i]?).map (fun e => { e with num_sends := e.num_sends + 1, last_sent_at := some now }) := by
  intro l
  induction l with
  | nil => intro i; cases i <;> simp [sendAt]
  | cons e rest ih =>
    intro i
    match i with
    | 0 =>
      dsimp only [sendAt]
      simp only [List.getElem?_cons_zero, Option.map_some']
    | j + 1 =>
      dsimp only [sendAt]
      simp only [List.getElem?_cons_succ]
      exact ih j

/-- The function `sendAt` leaves every other position untouched. -/
theorem sendAt_getElem_other (now : Nat) : ∀ (l : List Entry) (i j : Nat), j ≠ i →
    (sendAt now l i)[j]? = l[j]? := by
  intro l
  induction l with
  | nil => intro i j _; cases i <;> simp [sendAt]
  | cons e rest ih =>
    intro i j hji
    match i, j with
    | 0, 0 => exact absurd rfl hji
    | 0, k + 1 =>
      dsimp only [sendAt]
      simp only [List.getElem?_cons_succ]
    | m + 1, 0 =>
      dsimp only [sendAt]
      simp only [List.getElem?_cons_zero]
    | m + 1, k + 1 =>
      dsimp only [sendAt]
      simp only [List.getElem?_cons_succ]
      exact ih m k (fun hk => hji (by rw [hk]))

/-- A `next` call whose cursor is never committed has no observable effect:
running `next` again — at any time — from the state it left behind gives
exactly what a fresh `next` on the original state would give. -/
theorem next_restamp (q : OutQueue) (now now' : Nat) :
    next (next q now).2 now' = next q now' := by
  cases hscan : nextScan (timestamp q now) q.state.their_delay (q.state.local_ack.getD 0)
      q.state.local_window q.packets with
  | none =>
    have h2 : (next q now).2 = q := by
      simp only [next, hscan]
      split <;> rfl
    rw [h2]
  | some il =>
    obtain ⟨i, l'⟩ := il
    have h2 : (next q now).2 = { q with packets := l' } := by
      simp only [next, hscan]
    rw [h2]
    simp only [next, timestamp]
    rw [nextScan_restamp _ _ _ _ _ i l' hscan]
    have hf1 := nextScan_fst (asMicros (now - q.state.created_at)) q.state.their_delay
      (q.state.local_ack.getD 0) q.state.local_window q.packets
    rw [show nextScan (asMicros (now - q.state.created_at)) q.state.their_delay
        (q.state.local_ack.getD 0) q.state.local_window q.packets
        = nextScan (timestamp q now) q.state.their_delay (q.state.local_ack.getD 0)
            q.state.local_window q.packets from rfl, hscan] at hf1
    cases hs2 : nextScan (asMicros (now' - q.state.created_at)) q.state.their_delay
        (q.state.local_ack.getD 0) q.state.local_window q.packets with
    | none =>
      have hf2 := nextScan_fst (asMicros (now' - q.state.created_at)) q.state.their_delay
        (q.state.local_ack.getD 0) q.state.local_window q.packets
      rw [hs2, ← hf1] at hf2
      simp at hf2
    | some il2 =>
      obtain ⟨i2, l2⟩ := il2
      rfl

/-- Claim C5: without `sent`, repeated `next` calls reproduce the same
decision — the state left by `next` answers any later `next` exactly as the
original state would, so with equal clock readings the results are
identical; after committing an entry cursor at position `i`, the next
decision is the first still-unsent entry after `i` (or nothing — never a
synthesized ack, since `last_ack` was just refreshed); after committing a
synthesized-ack cursor, the next decision is nothing. -/
theorem next_sent_protocol (q : OutQueue) (now now₂ now₃ now₄ : Nat) :
    (next (next q now).2 now₄ = next q now₄)
    ∧ (∀ i, (next q now).1 = some (Item.entry i) →
        (next (sent (next q now).2 (Item.entry i) now₂) now₃).1
          = (firstUnsent (q.packets.drop (i + 1))).map (fun k => Item.entry (i + 1 + k)))
    ∧ (∀ p, (next q now).1 = some (Item.state p) →
        (next (sent (next q now).2 (Item.state p) now₂) now₃).1 = none) := by
  refine ⟨next_restamp q now now₄, ?_, ?_⟩
  · intro i hi
    cases hscan : nextScan (timestamp q now) q.state.their_delay (q.state.local_ack.getD 0)
        q.state.local_window q.packets with
    | none =>
      simp only [next, hscan] at hi
      split at hi <;> simp at hi
    | some il =>
      obtain ⟨i0, l'⟩ := il
      simp only [next, hscan, Option.some.injEq, Item.entry.injEq] at hi
      subst hi
      have h2 : (next q now).2 = { q with packets := l' } := by
        simp only [next, hscan]
      rw [h2]
      simp only [sent, next, timestamp]
      have hfu := firstUnsent_sendAt _ _ _ _ q.packets i0 l' hscan now₂
      have hf := nextScan_fst (asMicros (now₃ - q.state.created_at)) q.state.their_delay
        (q.state.local_ack.getD 0) q.state.local_window (sendAt now₂ l' i0)
      rw [hfu] at hf
      cases hs2 : nextScan (asMicros (now₃ - q.state.created_at)) q.state.their_delay
          (q.state.local_ack.getD 0) q.state.local_window (sendAt now₂ l' i0) with
      | none =>
        rw [hs2] at hf
        cases hfd : firstUnsent (q.packets.drop (i0 + 1)) with
        | none =>
          dsimp only
          rw [if_neg (fun hcon => hcon rfl)]
          rfl
        | some k =>
          rw [hfd] at hf
          simp at hf
      | some il2 =>
        obtain ⟨j, l2⟩ := il2
        rw [hs2] at hf
        cases hfd : firstUnsent (q.packets.drop (i0 + 1)) with
        | none =>
          rw [hfd] at hf
          simp at hf
        | some k =>
          rw [hfd] at hf
          simp only [Option.map_some', Option.some.injEq] at hf
          dsimp only
          simp only [Option.map_some', Option.some.injEq, Item.entry.injEq]
          exact hf
  · intro p hp
    cases hscan : nextScan (timestamp q now) q.state.their_delay (q.state.local_ack.getD 0)
        q.state.local_window q.packets with
    | some il =>
      obtain ⟨i0, l'⟩ := il
      simp only [next, hscan] at hp
      simp at hp
    | none =>
      simp only [next, hscan] at hp
      by_cases hg : q.state.local_ack ≠ q.state.last_ack
      · have h2 : (next q now).2 = q := by
          simp only [next, hscan]
          rw [if_pos hg]
        rw [h2]
        simp only [sent, next, timestamp]
        have hf1 := nextScan_fst (timestamp q now) q.state.their_delay
          (q.state.local_ack.getD 0) q.state.local_window q.packets
        rw [hscan] at hf1
        cases hs2 : nextScan (asMicros (now₃ - q.state.created_at)) q.state.their_delay
            (q.state.local_ack.getD 0) q.state.local_window q.packets with
        | some il2 =>
          obtain ⟨j, l2⟩ := il2
          have hf2 := nextScan_fst (asMicros (now₃ - q.state.created_at)) q.state.their_delay
            (q.state.local_ack.getD 0) q.state.local_window q.packets
          rw [hs2, ← hf1] at hf2
          simp at hf2
        | none =>
          dsimp only
          rw [if_neg (fun hcon => hcon rfl)]
      · rw [if_neg hg] at hp
        simp at hp

/-- Witness for C5: on a queue with two unsent entries, an uncommitted
`next` changes nothing observable, and committing the cursor for entry 0
makes the following `next` decide on entry 1; on an empty queue owing an
ack, committing the synthesized-ack cursor makes the following `next`
return nothing. -/
theorem next_sent_protocol_witness :
    next (next cursorQueue 0).2 5 = next cursorQueue 5
    ∧ (next (sent (next cursorQueue 0).2 (Item.entry 0) 1) 2).1 = some (Item.entry 1)
    ∧ (next (sent (next ackOwedQueue 0).2 (Item.state ackOwedPacket) 1) 2).1 = none := by
  refine ⟨(next_sent_protocol cursorQueue 0 1 2 5).1, ?_, ?_⟩
  · have h := (next_sent_protocol cursorQueue 0 1 2 5).2.1 0 (by decide)
    rw [h]
    decide
  · exact (next_sent_protocol ackOwedQueue 0 1 2 5).2.2 ackOwedPacket (by decide)

/-- Claim C4 counterexample: committing a synthesized pure-ack cursor does
*not* consume a sequence number — on a queue with `seq_nr = 5` the
synthesized State packet carries 5, and after `sent()` the queue's `seq_nr`
is still 5, not `(5 + 1) % 65536`. -/
theorem synth_ack_no_seq_consume_cex :
    (next pureAckQueue 0).1 = some (Item.state pureAckPacket)
    ∧ (sent (next pureAckQueue 0).2 (Item.state pureAckPacket) 1).state.seq_nr = 5
    ∧ (5 : Nat) ≠ (5 + 1) % 65536 := by
  refine ⟨by decide, by decide, by decide⟩

/-- Claim C4 (amended): the synthesized pure-acknowledgement packet carries
the connection id and the current next sequence number, but that number is
*not* consumed: committing the cursor leaves `seq_nr` unchanged — pure acks
do not occupy sequence space (only `push` advances `seq_nr`). -/
theorem synth_ack_fields (q : OutQueue) (now now₂ : Nat) (p : Packet)
    (h : (next q now).1 = some (Item.state p)) :
    p.connection_id = q.state.connection_id
    ∧ p.seq_nr = q.state.seq_nr
    ∧ p.ty = PTy.state
    ∧ (sent (next q now).2 (Item.state p) now₂).state.seq_nr = q.state.seq_nr := by
  cases hscan : nextScan (timestamp q now) q.state.their_delay (q.state.local_ack.getD 0)
      q.state.local_window q.packets with
  | some il =>
    obtain ⟨i0, l'⟩ := il
    simp only [next, hscan] at h
    simp at h
  | none =>
    simp only [next, hscan] at h
    by_cases hg : q.state.local_ack ≠ q.state.last_ack
    · rw [if_pos hg] at h
      simp only [Option.some.injEq, Item.state.injEq] at h
      subst h
      have h2 : (next q now).2 = q := by
        simp only [next, hscan]
        rw [if_pos hg]
      rw [h2]
      exact ⟨rfl, rfl, rfl, rfl⟩
    · rw [if_neg hg] at h
      simp at h

/-- Witness for C4 (amended): the packet synthesized for `pureAckQueue`
carries connection id 7 and sequence number 5, and `seq_nr` is still 5
after the commit. -/
theorem synth_ack_fields_witness :
    pureAckPacket.connection_id = 7
    ∧ pureAckPacket.seq_nr = 5
    ∧ pureAckPacket.ty = PTy.state
    ∧ (sent (next pureAckQueue 0).2 (Item.state pureAckPacket) 1).state.seq_nr = 5 :=
  synth_ack_fields pureAckQueue 0 1 pureAckPacket (by decide)

/-- Claim C10: `sent` on either cursor records `last_ack := local_ack`; on
an entry cursor it additionally — and only — increments that entry's
`num_sends` and stamps its `last_sent_at`, leaving every other entry, the
rest of the connection state and the congestion fields unchanged; on a
synthesized-ack cursor the queue, `seq_nr` and every other field are left
unchanged. -/
theorem sent_frame (q : OutQueue) (i : Nat) (p : Packet) (now : Nat)
    (h : i < q.packets.length) :
    ((sent q (Item.entry i) now).state.last_ack = q.state.local_ack
     ∧ (sent q (Item.entry i) now).packets.length = q.packets.length
     ∧ ((sent q (Item.entry i) now).packets[i]?).map Entry.num_sends
         = (q.packets[i]?).map (fun e => e.num_sends + 1)
     ∧ ((sent q (Item.entry i) now).packets[i]?).map Entry.last_sent_at = some (some now)
     ∧ ((sent q (Item.entry i) now).packets[i]?).map Entry.packet
         = (q.packets[i]?).map Entry.packet
     ∧ ((sent q (Item.entry i) now).packets[i]?).map Entry.acked
         = (q.packets[i]?).map Entry.acked
     ∧ (∀ j, j ≠ i → (sent q (Item.entry i) now).packets[j]? = q.packets[j]?)
     ∧ (sent q (Item.entry i) now).state.connection_id = q.state.connection_id
     ∧ (sent q (Item.entry i) now).state.seq_nr = q.state.seq_nr
     ∧ (sent q (Item.entry i) now).state.local_ack = q.state.local_ack
     ∧ (sent q (Item.entry i) now).state.peer_window = q.state.peer_window
     ∧ (sent q (Item.entry i) now).state.local_window = q.state.local_window
     ∧ (sent q (Item.entry i) now).state.created_at = q.state.created_at
     ∧ (sent q (Item.entry i) now).state.their_delay = q.state.their_delay
     ∧ (sent q (Item.entry i) now).rtt = q.rtt
     ∧ (sent q (Item.entry i) now).rtt_variance = q.rtt_variance
     ∧ (sent q (Item.entry i) now).max_window = q.max_window)
    ∧ ((sent q (Item.state p) now).state.last_ack = q.state.local_ack
     ∧ (sent q (Item.state p) now).packets = q.packets
     ∧ (sent q (Item.state p) now).state.seq_nr = q.state.seq_nr
     ∧ (sent q (Item.state p) now).state.connection_id = q.state.connection_id
     ∧ (sent q (Item.state p) now).state.local_ack = q.state.local_ack
     ∧ (sent q (Item.state p) now).state.peer_window = q.state.peer_window
     ∧ (sent q (Item.state p) now).state.local_window = q.state.local_window
     ∧ (sent q (Item.state p) now).state.created_at = q.state.created_at
     ∧ (sent q (Item.state p) now).state.their_delay = q.state.their_delay
     ∧ (sent q (Item.state p) now).rtt = q.rtt
     ∧ (sent q (Item.state p) now).rtt_variance = q.rtt_variance
     ∧ (sent q (Item.state p) now).max_window = q.max_window) := by
  have hget : ∃ e, q.packets[i]? = some e := by
    rcases hi : q.packets[i]? with _ | e
    · rw [List.getElem?_eq_none_iff] at hi
      omega
    · exact ⟨e, rfl⟩
  obtain ⟨e, he⟩ := hget
  refine ⟨⟨rfl, ?_, ?_, ?_, ?_, ?_, ?_, rfl, rfl, rfl, rfl, rfl, rfl, rfl, rfl, rfl, rfl⟩,
    rfl, rfl, rfl, rfl, rfl, rfl, rfl, rfl, rfl, rfl, rfl, rfl⟩
  · exact sendAt_length now q.packets i
  · rw [show (sent q (Item.entry i) now).packets = sendAt now q.packets i from rfl,
      sendAt_getElem_self, he]
    rfl
  · rw [show (sent q (Item.entry i) now).packets = sendAt now q.packets i from rfl,
      sendAt_getElem_self, he]
    rfl
  · rw [show (sent q (Item.entry i) now).packets = sendAt now q.packets i from rfl,
      sendAt_getElem_self, he]
    rfl
  · rw [show (sent q (Item.entry i) now).packets = sendAt now q.packets i from rfl,
      sendAt_getElem_self, he]
    rfl
  · intro j hj
    exact sendAt_getElem_other now q.packets i j hj

/-- Witness for C10: on a one-entry queue, committing the entry cursor
takes `num_sends` from 0 to 1 and records the owed ack; committing a
synthesized-ack cursor records the ack and leaves the queue untouched. -/
theorem sent_frame_witness :
    ((sent frameQueue (Item.entry 0) 42).packets[0]?).map Entry.num_sends = some 1
    ∧ (sent frameQueue (Item.state Packet.stateP) 42).state.last_ack = some 9
    ∧ (sent frameQueue (Item.state Packet.stateP) 42).packets = frameQueue.packets := by
  have h := sent_frame frameQueue 0 Packet.stateP 42 (by decide)
  exact ⟨(h.1.2.2.1).trans (by decide), (h.2.1).trans (by decide), h.2.2.1⟩

end Utp
